import Mathlib

/-!
Verification of the response-cache and deduplication layer of the
Modern_GUI_PyDracula desktop assistant.

The development shallowly embeds the cache core:
  * `core/utils/hasher.py`           — `Hasher.create_cache_key` (the `"|".join` step),
  * `core/cache/cache_manager.py`    — `CacheManager` (key generation, get/put,
                                       invalidation, eviction, stats),
  * `core/database/repository.py`    — `DatabaseRepository` cache queries over the
                                       `cached_responses` table,
  * `core/database/models.py`        — the `CachedResponse` row type.

Timestamps (`datetime.utcnow()`) are modelled as natural numbers passed
explicitly as `now`; the SQLite table is a list of rows plus the autoincrement
counter.  A database round-trip that can raise is modelled with `Except Unit`;
the broad `try/except` blocks of `CacheManager` become explicit matches on that
result, and methods without such a block (notably `get_cache_stats`) keep the
`Except` in their return type, so exception propagation is visible.
-/

namespace PyDracula

/-- Row of the `cached_responses` table (`core/database/models.py`,
class `CachedResponse`): autoincrement `id`, unique `cache_key`, payload
columns, `hits` (default 0), nullable `last_hit`, `created_at`, nullable
`expires_at`, and the validity flag `is_valid` (default true). -/
structure CacheEntry where
  id : Nat
  cache_key : String
  input_text : String
  input_hash : String
  provider : String
  model : String
  prompt_template : String
  response : String
  hits : Nat
  last_hit : Option Nat
  created_at : Nat
  expires_at : Option Nat
  is_valid : Bool
deriving DecidableEq, Repr

/-- The `cached_responses` table: its rows plus the autoincrement counter. -/
structure Store where
  entries : List CacheEntry
  nextId : Nat
deriving DecidableEq, Repr

/-- The row filter of `DatabaseRepository.get_cached_response`
(repository.py lines 256-266): `is_valid == True` and
(`expires_at` is null or `expires_at > utcnow()`). -/
def isLiveAt (now : Nat) (e : CacheEntry) : Bool :=
  e.is_valid && (match e.expires_at with
    | none => true
    | some x => decide (now < x))

/-- The expiry filter of `DatabaseRepository.clean_expired_cache`
(repository.py lines 304-312): `expires_at` non-null and `expires_at < utcnow()`. -/
def isExpiredAt (now : Nat) (e : CacheEntry) : Bool :=
  match e.expires_at with
  | none => false
  | some x => decide (x < now)

/-- `DatabaseRepository.get_cached_response` (repository.py lines 247-276):
select the row matching `cache_key` that is valid and unexpired; on a hit,
increment `hits`, set `last_hit = utcnow()` and return the updated row. -/
def db_get_cached_response (st : Store) (key : String) (now : Nat) :
    Option CacheEntry × Store :=
  match st.entries.find? (fun e => e.cache_key == key && isLiveAt now e) with
  | none => (none, st)
  | some e =>
      let e2 := { e with hits := e.hits + 1, last_hit := some now }
      (some e2,
       { st with entries := st.entries.map (fun x => if x.id == e.id then e2 else x) })

/-- The `expires_at` computation of `DatabaseRepository.add_cached_response`
(repository.py lines 228-230): `utcnow() + ttl_seconds` when `ttl_seconds` is
truthy — Python's `if ttl_seconds:` leaves it null for both `None` and `0`. -/
def ttlExpiry (ttl_seconds : Option Nat) (now : Nat) : Option Nat :=
  match ttl_seconds with
  | some t => if t ≠ 0 then some (now + t) else none
  | none => none

/-- `DatabaseRepository.add_cached_response` (repository.py lines 215-245):
insert a fresh row with `hits = 0`, `last_hit` null, `is_valid = true`, and
`expires_at` per `ttlExpiry`.  The column `cache_key` carries a uniqueness
constraint over ALL rows, valid or not; a duplicate insert raises
`IntegrityError`, modelled as `Except.error`. -/
def db_add_cached_response (st : Store) (key input_text input_hash provider
    model prompt_template response : String) (ttl_seconds : Option Nat)
    (now : Nat) : Except Unit (CacheEntry × Store) :=
  if st.entries.any (fun e => e.cache_key == key) then
    .error ()
  else
    let expires_at : Option Nat := ttlExpiry ttl_seconds now
    let c : CacheEntry :=
      { id := st.nextId, cache_key := key, input_text := input_text,
        input_hash := input_hash, provider := provider, model := model,
        prompt_template := prompt_template, response := response,
        hits := 0, last_hit := none, created_at := now,
        expires_at := expires_at, is_valid := true }
    .ok (c, { entries := st.entries ++ [c], nextId := st.nextId + 1 })

/-- `DatabaseRepository.invalidate_cache` (repository.py lines 278-299):
`UPDATE cached_responses SET is_valid = false` restricted to `cache_key ==
key` when a key is given, unrestricted otherwise.  The returned rowcount is
SQLite's `changes()`, which counts every row MATCHED by the `UPDATE`, also
when `is_valid` was already false. -/
def db_invalidate_cache (st : Store) (key : Option String) : Nat × Store :=
  let hit : CacheEntry → Bool := fun e =>
    match key with
    | some k => e.cache_key == k
    | none => true
  ((st.entries.filter hit).length,
   { st with entries :=
      st.entries.map (fun e => if hit e then { e with is_valid := false } else e) })

/-- `DatabaseRepository.clean_expired_cache` (repository.py lines 301-314):
physically `DELETE` every row with non-null past `expires_at`, regardless of
`is_valid`; return the number of deleted rows. -/
def db_clean_expired_cache (st : Store) (now : Nat) : Nat × Store :=
  ((st.entries.filter (isExpiredAt now)).length,
   { st with entries := st.entries.filter (fun e => !isExpiredAt now e) })

/-- Count of rows with `is_valid == True`, the query of
`CacheManager._get_cache_size` (cache_manager.py lines 235-243).  Note: no
expiry filter — expired but still-valid rows are counted. -/
def db_count_valid (st : Store) : Nat :=
  (st.entries.filter (fun e => e.is_valid)).length

/-- Count of live rows (valid AND unexpired) — the spec's notion of a "live"
entry, which is also exactly the row filter used by lookups (`isLiveAt`). -/
def liveEntryCount (now : Nat) (st : Store) : Nat :=
  (st.entries.filter (isLiveAt now)).length

/-! ### Fingerprint generation -/

/-- Python's `sep.join(args)` (used as `"|".join(...)` in
`Hasher.create_cache_key`, hasher.py line 66). -/
def pyJoin (sep : String) : List String → String
  | [] => ""
  | [a] => a
  | a :: b :: rest => a ++ sep ++ pyJoin sep (b :: rest)

/-- The component list assembled by `CacheManager.generate_cache_key`
(cache_manager.py lines 60-67): `[text, provider, prompt_type]`, with the
model appended only when `model` is truthy — Python's `if model:` skips both
`None` and the empty string. -/
def generate_cache_key_components (text provider prompt_type : String)
    (model : Option String) : List String :=
  let components := [text, provider, prompt_type]
  match model with
  | some m => if m = "" then components else components ++ [m]
  | none => components

/-- The concatenation step of `Hasher.create_cache_key` (hasher.py line 66):
`"|".join(str(arg) for arg in args)` — the string handed to the MD5 digest.
All call sites pass strings, so `str` is the identity. -/
def create_cache_key_combined (args : List String) : String :=
  pyJoin "|" args

/-- The string handed to the MD5 digest by `Hasher.create_cache_key` for the
components of `CacheManager.generate_cache_key`.  The final cache key is the
MD5 hex digest of this string; since MD5 is a fixed deterministic function,
equal pre-digest strings yield equal cache keys. -/
def generate_cache_key_predigest (text provider prompt_type : String)
    (model : Option String) : String :=
  create_cache_key_combined
    (generate_cache_key_components text provider prompt_type model)

/-- `CacheManager.generate_cache_key` composed with `Hasher.create_cache_key`
(cache_manager.py line 69, hasher.py lines 55-67), parametric in the MD5 hex
digest function. -/
def generate_cache_key (md5hex : String → String)
    (text provider prompt_type : String) (model : Option String) : String :=
  md5hex (generate_cache_key_predigest text provider prompt_type model)

/-! ### Cache Engine (`CacheManager`) -/

/-- The cache slice of the configuration (`core/config/settings.py`,
class `CacheConfig`) as read by `CacheManager.__init__`. -/
structure CacheConfig where
  enabled : Bool
  ttl : Nat
  max_size : Nat
deriving DecidableEq, Repr

/-- One database round-trip that may raise a storage fault.  `fault = true`
models any storage-layer exception (I/O error, constraint violation, ...)
raised during the session; `get_session` rolls the transaction back and
re-raises, so a faulting call leaves the store unchanged and yields
`Except.error`. -/
def dbTry (fault : Bool) (x : α) : Except Unit α :=
  if fault then .error () else .ok x

/-- The SQL sort key of the eviction `ORDER BY last_hit ASC, created_at ASC`
(cache_manager.py line 272).  SQLite sorts `NULL` before every non-null value
under `ASC`, so a never-hit row precedes every row with a timestamp. -/
def evictKey (e : CacheEntry) : Nat × Nat × Nat :=
  match e.last_hit with
  | none => (0, 0, e.created_at)
  | some t => (1, t, e.created_at)

/-- Lexicographic comparison of eviction sort keys. -/
@[reducible] def lexLE (p q : Nat × Nat × Nat) : Prop :=
  p.1 < q.1 ∨ (p.1 = q.1 ∧ (p.2.1 < q.2.1 ∨ (p.2.1 = q.2.1 ∧ p.2.2 ≤ q.2.2)))

/-- Row order used by eviction: `last_hit` ascending with nulls first,
ties broken by `created_at` ascending. -/
@[reducible] def evictLE (a b : CacheEntry) : Prop :=
  lexLE (evictKey a) (evictKey b)

instance : DecidableRel evictLE := fun a b =>
  inferInstanceAs (Decidable (lexLE (evictKey a) (evictKey b)))

instance : IsTotal CacheEntry evictLE :=
  ⟨fun a b => by unfold evictLE lexLE; omega⟩

instance : IsTrans CacheEntry evictLE :=
  ⟨fun a b c => by unfold evictLE lexLE; omega⟩

/-- The eviction quota `max(1, int(max_size * 0.1))` of
`CacheManager._clean_old_entries` (cache_manager.py line 256).  For every
`max_size` below `2^51` the float product `max_size * 0.1` truncates to
exactly `max_size / 10` in integer division (the relative error of the
double `0.1` is about `2^-54`, far below one unit), which is how it is
written here. -/
def evictQuota (cfg : CacheConfig) : Nat :=
  max 1 (cfg.max_size / 10)

/-- The rows removed by `clean_expired_cache` inside `_clean_old_entries`,
counted. -/
def expiredCount (st : Store) (now : Nat) : Nat :=
  (db_clean_expired_cache st now).1

/-- The store left behind by that purge. -/
def purgedStore (st : Store) (now : Nat) : Store :=
  (db_clean_expired_cache st now).2

/-- The rows selected by `SELECT id FROM cached_responses ORDER BY last_hit
ASC, created_at ASC LIMIT (remove_count - expired)` (cache_manager.py lines
270-274), run against the post-purge table.  Note the query has NO validity
filter: tombstoned rows participate.  SQLite's `ORDER BY` sorts `NULL`
first; ties beyond `(last_hit, created_at)` are resolved here by a stable
sort of the table rows. -/
def evictVictims (cfg : CacheConfig) (st : Store) (now : Nat) :
    List CacheEntry :=
  ((purgedStore st now).entries.insertionSort evictLE).take
    (evictQuota cfg - expiredCount st now)

/-- `CacheManager._clean_old_entries` with its default `remove_count = None`
(cache_manager.py lines 245-283): compute the quota, purge expired rows
first (its own committed session), stop if that already met the quota;
otherwise select the oldest-access rows per `evictVictims` and `DELETE`
them by id (`if old_ids:` skips an empty selection), returning
`expired + rowcount`. -/
def cm_clean_old_entries (cfg : CacheConfig) (st : Store) (now : Nat) :
    Nat × Store :=
  let remove_count := evictQuota cfg
  let expired := expiredCount st now
  let st1 := purgedStore st now
  if remove_count ≤ expired then
    (expired, st1)
  else
    let victims := evictVictims cfg st now
    let victimIds := victims.map (fun e => e.id)
    if victims.isEmpty then
      (expired, st1)
    else
      (expired + (st1.entries.filter (fun e => victimIds.contains e.id)).length,
       { st1 with entries :=
          st1.entries.filter (fun e => !victimIds.contains e.id) })

/-- `CacheManager.get_cached_response` (cache_manager.py lines 74-103):
short-circuit to `None` when the cache is disabled; otherwise one guarded
database lookup.  A storage fault is caught and turned into `None` with the
store untouched (rolled back).  On a MISS the debug log touches no row
attribute and `None` is returned.  On a HIT the repository has already
committed the bump (so the store keeps it) and closed its session, leaving
the returned row expired (`expire_on_commit` default) and detached; the
hit-log f-string then reads `cached.hits` and (via `_get_cache_age`)
`cached.created_at` inside the same `try` (lines 91-95), which raises
`DetachedInstanceError`, is caught by the broad `except`, and `None` is
returned — so the hit branch also yields `None`, with the bumped store. -/
def cm_get_cached_response (cfg : CacheConfig) (fault : Bool) (st : Store)
    (key : String) (now : Nat) : Option CacheEntry × Store :=
  if !cfg.enabled then (none, st)
  else
    match dbTry fault (db_get_cached_response st key now) with
    | .error _ => (none, st)
    | .ok (none, st1) => (none, st1)
    | .ok (some _, st1) => (none, st1)

/-- `CacheManager.cache_response` (cache_manager.py lines 105-161):
no-op when disabled; otherwise, inside one broad `try`, read the valid-row
count, run `_clean_old_entries` when it has reached `max_size`, hash the
input text, convert `ttl` (0 meaning no expiry) and insert.  Each database
step commits its own session, so when the final insert raises (duplicate
key), the eviction already performed stays committed while the insert is
rolled back and `None` is returned. -/
def cm_cache_response (md5hex : String → String) (cfg : CacheConfig)
    (fault : Bool) (st : Store)
    (key input_text provider model prompt_template response : String)
    (now : Nat) : Option CacheEntry × Store :=
  if !cfg.enabled then (none, st)
  else
    match dbTry fault () with
    | .error _ => (none, st)
    | .ok _ =>
      let current_size := db_count_valid st
      let st1 := if cfg.max_size ≤ current_size then
          (cm_clean_old_entries cfg st now).2
        else st
      let input_hash := md5hex input_text
      let ttl_seconds : Option Nat := if 0 < cfg.ttl then some cfg.ttl else none
      match db_add_cached_response st1 key input_text input_hash provider
          model prompt_template response ttl_seconds now with
      | .error _ => (none, st1)
      | .ok (c, st2) => (some c, st2)

/-- `CacheManager.invalidate_cache_entry` (cache_manager.py lines 163-179):
guarded single-key invalidation, `count > 0` on success, `False` on any
exception. -/
def cm_invalidate_cache_entry (cfg : CacheConfig) (fault : Bool) (st : Store)
    (key : String) : Bool × Store :=
  match dbTry fault (db_invalidate_cache st (some key)) with
  | .error _ => (false, st)
  | .ok (count, st1) => (decide (0 < count), st1)

/-- `CacheManager.clear_cache` (cache_manager.py lines 181-194): guarded
invalidate-all, `0` on any exception. -/
def cm_clear_cache (cfg : CacheConfig) (fault : Bool) (st : Store) :
    Nat × Store :=
  match dbTry fault (db_invalidate_cache st none) with
  | .error _ => (0, st)
  | .ok r => r

/-- `CacheManager.clean_expired_cache` (cache_manager.py lines 196-209):
guarded purge of expired rows, `0` on any exception. -/
def cm_clean_expired_cache (cfg : CacheConfig) (fault : Bool) (st : Store)
    (now : Nat) : Nat × Store :=
  match dbTry fault (db_clean_expired_cache st now) with
  | .error _ => (0, st)
  | .ok r => r

/-- The aggregate snapshot assembled by `CacheManager.get_cache_stats`. -/
structure CacheStats where
  total_entries : Nat
  valid_entries : Nat
  total_hits : Nat
  enabled : Bool
  max_size : Nat
  ttl : Nat
deriving DecidableEq, Repr

/-- `CacheManager.get_cache_stats` (cache_manager.py lines 211-233): the
counting queries run inside `get_session` but NOT inside any `try/except`,
so a storage fault propagates to the caller — hence the `Except` return
type, with no catching branch. -/
def cm_get_cache_stats (cfg : CacheConfig) (fault : Bool) (st : Store) :
    Except Unit CacheStats :=
  dbTry fault
    { total_entries := st.entries.length,
      valid_entries := db_count_valid st,
      total_hits := (st.entries.map (fun e => e.hits)).sum,
      enabled := cfg.enabled,
      max_size := cfg.max_size,
      ttl := cfg.ttl }

/-- The row `cache_response` inserts for a fresh key: id from the
autoincrement counter (unchanged by eviction), zero hits, no last hit,
created now, expiring at `now + ttl` when `ttl > 0`. -/
def cm_new_entry (cfg : CacheConfig) (md5hex : String → String) (st : Store)
    (key input_text provider model prompt_template response : String)
    (now : Nat) : CacheEntry :=
  { id := st.nextId, cache_key := key, input_text := input_text,
    input_hash := md5hex input_text, provider := provider, model := model,
    prompt_template := prompt_template, response := response,
    hits := 0, last_hit := none, created_at := now,
    expires_at := if 0 < cfg.ttl then some (now + cfg.ttl) else none,
    is_valid := true }

/-! ### Helper lemmas -/

/-- Character-list version of the `"|".join` concatenation. -/
def joinData : List (List Char) → List Char
  | [] => []
  | [a] => a
  | a :: b :: rest => a ++ '|' :: joinData (b :: rest)

theorem pyJoin_data : ∀ l : List String,
    (pyJoin "|" l).data = joinData (l.map String.data)
  | [] => rfl
  | [_] => rfl
  | a :: b :: rest => by
      show (a ++ "|" ++ pyJoin "|" (b :: rest)).data = _
      rw [String.data_append, String.data_append, pyJoin_data (b :: rest),
        show ("|" : String).data = ['|'] from rfl, List.append_assoc]
      rfl

theorem join_cancel (a : List Char) : ∀ c u v : List Char, '|' ∉ a → '|' ∉ c →
    a ++ '|' :: u = c ++ '|' :: v → a = c ∧ u = v := by
  induction a with
  | nil =>
    intro c u v _ hc h
    cases c with
    | nil => simpa using h
    | cons y ys =>
      simp only [List.nil_append, List.cons_append, List.cons.injEq] at h
      exact absurd (h.1 ▸ List.mem_cons_self y ys) (h.1 ▸ hc)
  | cons x xs ih =>
    intro c u v ha hc h
    cases c with
    | nil =>
      simp only [List.nil_append, List.cons_append, List.cons.injEq] at h
      exact absurd (h.1 ▸ List.mem_cons_self x xs) (h.1 ▸ ha)
    | cons y ys =>
      simp only [List.cons_append, List.cons.injEq] at h
      obtain ⟨rfl, h2⟩ := h
      have hx : '|' ∉ xs := fun hm => ha (List.mem_cons_of_mem _ hm)
      have hy : '|' ∉ ys := fun hm => hc (List.mem_cons_of_mem _ hm)
      obtain ⟨rfl, rfl⟩ := ih ys u v hx hy h2
      exact ⟨rfl, rfl⟩

theorem joinData_inj : ∀ xs ys : List (List Char), xs ≠ [] → ys ≠ [] →
    (∀ l ∈ xs, '|' ∉ l) → (∀ l ∈ ys, '|' ∉ l) →
    joinData xs = joinData ys → xs = ys
  | [], _, hx, _, _, _, _ => absurd rfl hx
  | _ :: _, [], _, hy, _, _, _ => absurd rfl hy
  | [a], [c], _, _, _, _, h => by rw [show a = c from h]
  | [a], c :: d :: r, _, _, hx, _, h => by
      exfalso
      have hmem : '|' ∈ a := by
        rw [show joinData [a] = a from rfl] at h
        rw [h, joinData]
        exact List.mem_append_right _ (List.mem_cons_self _ _)
      exact hx a (List.mem_cons_self _ _) hmem
  | a :: b :: r, [c], _, _, _, hy, h => by
      exfalso
      have hmem : '|' ∈ c := by
        rw [show joinData [c] = c from rfl] at h
        rw [← h, joinData]
        exact List.mem_append_right _ (List.mem_cons_self _ _)
      exact hy c (List.mem_cons_self _ _) hmem
  | a :: b :: r, c :: d :: r2, _, _, hx, hy, h => by
      rw [joinData, joinData] at h
      obtain ⟨rfl, h2⟩ := join_cancel a c _ _
        (hx a (List.mem_cons_self _ _)) (hy c (List.mem_cons_self _ _)) h
      have ih := joinData_inj (b :: r) (d :: r2) (by simp) (by simp)
        (fun l hl => hx l (List.mem_cons_of_mem _ hl))
        (fun l hl => hy l (List.mem_cons_of_mem _ hl)) h2
      rw [ih]

theorem string_data_injective : Function.Injective String.data := by
  intro a b hab
  cases a
  cases b
  exact congrArg String.mk hab

/-- Filtering commutes with a map that does not change the predicate. -/
theorem length_filter_map_invariant (f : CacheEntry → CacheEntry)
    (p : CacheEntry → Bool) (hf : ∀ e, p (f e) = p e) :
    ∀ l : List CacheEntry, ((l.map f).filter p).length = (l.filter p).length := by
  intro l
  induction l with
  | nil => rfl
  | cons e es ih =>
    simp only [List.map_cons, List.filter_cons, hf e]
    cases p e <;> simp [ih]

/-! ### Claims about key generation (C5, C10) -/

/-- Claim C5 counterexample: the claim says the key generated with the model
argument omitted differs from the key generated with the empty-string model.
In the code `if model:` treats the empty string as absent, so the component
lists — and hence the strings handed to the MD5 digest, and hence the cache
keys — coincide, even though `some ""` and `none` are different inputs. -/
theorem C5_counterexample :
    generate_cache_key_predigest "a" "p" "t" (some "") =
      generate_cache_key_predigest "a" "p" "t" none ∧
    (some "" : Option String) ≠ none := by
  exact ⟨rfl, by decide⟩

/-- Claim C5 amended: omitting `model` produces the same cache key as passing
the empty string (for every digest function, in particular MD5), because
Python's `if model:` is false for `""`; but for every non-empty model value
the pre-digest string does differ from the omitted-model one. -/
theorem C5_amended (md5hex : String → String)
    (text provider prompt_type m : String) (hm : m ≠ "") :
    generate_cache_key md5hex text provider prompt_type (some "") =
      generate_cache_key md5hex text provider prompt_type none ∧
    generate_cache_key_predigest text provider prompt_type (some m) ≠
      generate_cache_key_predigest text provider prompt_type none := by
  constructor
  · rfl
  · intro h
    have hms : 0 < m.length := by
      cases m with
      | mk d =>
        cases d with
        | nil => exact absurd rfl hm
        | cons x xs => simp [String.length]
    have hlen := congrArg String.length h
    simp only [generate_cache_key_predigest, generate_cache_key_components,
      create_cache_key_combined, if_neg hm, pyJoin, String.length_append] at hlen
    omega

theorem C5_amended_witness :
    generate_cache_key (fun s => s) "a" "p" "t" (some "") =
      generate_cache_key (fun s => s) "a" "p" "t" none ∧
    generate_cache_key_predigest "a" "p" "t" (some "m") ≠
      generate_cache_key_predigest "a" "p" "t" none :=
  C5_amended (fun s => s) "a" "p" "t" "m" (by decide)

/-- Claim C10 counterexample: the claim says no two different component
tuples produce the same pre-digest string.  The separator `"|"` may itself
occur inside a component, so the tuples `("a|b", "c")` and `("a", "b|c")`
produce the identical pre-digest string `"a|b|c"`. -/
theorem C10_counterexample :
    create_cache_key_combined ["a|b", "c"] =
      create_cache_key_combined ["a", "b|c"] ∧
    (["a|b", "c"] : List String) ≠ ["a", "b|c"] := by
  exact ⟨rfl, by decide⟩

/-- Claim C10 amended: restricted to non-empty component tuples whose
components do not contain the separator character `'|'`, the concatenation
of `Hasher.create_cache_key` is injective: two distinct such tuples always
yield distinct pre-digest strings.  (Tuples with a component containing
`'|'` can collide, as the counterexample shows.) -/
theorem C10_amended (xs ys : List String) (hx0 : xs ≠ []) (hy0 : ys ≠ [])
    (hx : ∀ s ∈ xs, '|' ∉ s.data) (hy : ∀ s ∈ ys, '|' ∉ s.data)
    (h : create_cache_key_combined xs = create_cache_key_combined ys) :
    xs = ys := by
  have hd : joinData (xs.map String.data) = joinData (ys.map String.data) := by
    rw [← pyJoin_data, ← pyJoin_data]
    exact congrArg String.data h
  have hmaps := joinData_inj (xs.map String.data) (ys.map String.data)
    (by simpa using hx0) (by simpa using hy0)
    (by
      intro l hl
      obtain ⟨s, hs, rfl⟩ := List.mem_map.mp hl
      exact hx s hs)
    (by
      intro l hl
      obtain ⟨s, hs, rfl⟩ := List.mem_map.mp hl
      exact hy s hs)
    hd
  exact List.map_injective_iff.mpr string_data_injective hmaps

theorem C10_amended_witness : (["ab", "c"] : List String) = ["ab", "c"] :=
  C10_amended ["ab", "c"] ["ab", "c"] (by decide) (by decide)
    (by decide) (by decide) rfl

/-! ### Claims about invalidation (C3) and the exception boundary (C4) -/

/-- A single live cache row used as concrete input for invalidation claims. -/
def c3Entry : CacheEntry :=
  { id := 0, cache_key := "k", input_text := "in", input_hash := "h",
    provider := "p", model := "m", prompt_template := "t", response := "r",
    hits := 0, last_hit := none, created_at := 0, expires_at := none,
    is_valid := true }

/-- A store holding exactly that single live row. -/
def c3Store : Store := { entries := [c3Entry], nextId := 1 }

/-- Claim C3 counterexample: the claim says invalidating the same key twice
returns 1 then 0.  The `UPDATE` of `invalidate_cache` filters only by
`cache_key` (not by `is_valid`), and SQLite's rowcount counts matched rows,
so the second invalidation of the single-entry store again reports 1. -/
theorem C3_counterexample :
    (db_invalidate_cache c3Store (some "k")).1 = 1 ∧
    (db_invalidate_cache (db_invalidate_cache c3Store (some "k")).2
      (some "k")).1 ≠ 0 := by
  decide

/-- Claim C3 amended: for every key present as a single entry, invalidation
returns 1 every time, including when the entry is already invalid — the
`UPDATE` matches the row by key regardless of its `valid` flag and the
rowcount counts matched rows; invalidation returns 0 exactly for keys with
no row at all. -/
theorem C3_amended (st : Store) (k : String)
    (h1 : (st.entries.filter (fun e => e.cache_key == k)).length = 1) :
    (db_invalidate_cache st (some k)).1 = 1 ∧
    (db_invalidate_cache (db_invalidate_cache st (some k)).2 (some k)).1 = 1 ∧
    ∀ k2 : String,
      (st.entries.filter (fun e => e.cache_key == k2)).length = 0 →
      (db_invalidate_cache st (some k2)).1 = 0 := by
  refine ⟨h1, ?_, ?_⟩
  · have hf : ∀ e : CacheEntry,
        ((if (e.cache_key == k) then { e with is_valid := false } else e).cache_key
          == k) = (e.cache_key == k) := by
      intro e
      split <;> rfl
    have key : ((st.entries.map (fun e =>
        if (e.cache_key == k) then { e with is_valid := false } else e)).filter
          (fun e => e.cache_key == k)).length = 1 := by
      rw [length_filter_map_invariant _ _ hf st.entries]
      exact h1
    exact key
  · intro k2 h0
    exact h0

/-- Witness for the amended invalidation claim on the concrete single-entry
store: 1 on the first call, 1 again on the second, 0 for an absent key. -/
theorem C3_amended_witness :
    (db_invalidate_cache c3Store (some "k")).1 = 1 ∧
    (db_invalidate_cache (db_invalidate_cache c3Store (some "k")).2
      (some "k")).1 = 1 ∧
    (db_invalidate_cache c3Store (some "absent")).1 = 0 := by
  have h := C3_amended c3Store "k" (by decide)
  exact ⟨h.1, h.2.1, h.2.2 "absent" (by decide)⟩

/-- Claim C4 counterexample: the claim says no exception ever propagates
across the cache boundary for any of the six operations, including `stats`.
`get_cache_stats` has no `try/except`, so a storage fault raised inside its
session propagates to the caller. -/
theorem C4_counterexample :
    cm_get_cache_stats { enabled := true, ttl := 0, max_size := 10 } true
      { entries := [], nextId := 0 } = .error () := rfl

/-- Claim C4 amended: for `get`, `put`, `invalidate` (single-key and all),
and `purge_expired`, a storage-layer fault is caught inside the Cache Engine
and converted to the benign result (`None`, `None`, `False`/`0`, `0`) with
the store rolled back unchanged, and `generate_key` performs no storage
access at all; but a fault during `stats` is NOT caught and propagates to
the caller. -/
theorem C4_amended (cfg : CacheConfig) (st : Store)
    (key input_text provider model prompt_template response : String)
    (now : Nat) (md5hex : String → String) :
    cm_get_cached_response cfg true st key now = (none, st) ∧
    cm_cache_response md5hex cfg true st key input_text provider model
      prompt_template response now = (none, st) ∧
    cm_invalidate_cache_entry cfg true st key = (false, st) ∧
    cm_clear_cache cfg true st = (0, st) ∧
    cm_clean_expired_cache cfg true st now = (0, st) ∧
    cm_get_cache_stats cfg true st = .error () := by
  refine ⟨?_, ?_, rfl, rfl, rfl, rfl⟩ <;>
    · cases hc : cfg.enabled <;>
        simp [cm_get_cached_response, cm_cache_response, dbTry, hc]

/-! ### Lookup and insertion lemmas (for C1, C6, C7, C8) -/

theorem find_append_of_none (p : α → Bool) (l1 l2 : List α)
    (h : ∀ x ∈ l1, p x = false) : (l1 ++ l2).find? p = l2.find? p := by
  induction l1 with
  | nil => rfl
  | cons a as ih =>
    rw [List.cons_append, List.find?_cons_of_neg _ (by simp [h a (List.mem_cons_self _ _)])]
    exact ih (fun x hx => h x (List.mem_cons_of_mem _ hx))

/-- The row built by `db_add_cached_response`, as a named constructor so it
can appear in lemma statements. -/
def db_new_entry (st : Store)
    (key input_text input_hash provider model prompt_template response : String)
    (ttl_seconds : Option Nat) (now : Nat) : CacheEntry :=
  { id := st.nextId, cache_key := key, input_text := input_text,
    input_hash := input_hash, provider := provider, model := model,
    prompt_template := prompt_template, response := response,
    hits := 0, last_hit := none, created_at := now,
    expires_at := ttlExpiry ttl_seconds now, is_valid := true }

/-- Inserting a fresh key succeeds and appends exactly the new row. -/
theorem db_add_fresh (st : Store)
    (key input_text input_hash provider model prompt_template response : String)
    (ttl_seconds : Option Nat) (now : Nat)
    (hfresh : ∀ e ∈ st.entries, (e.cache_key == key) = false) :
    db_add_cached_response st key input_text input_hash provider model
      prompt_template response ttl_seconds now =
    .ok (db_new_entry st key input_text input_hash provider model
           prompt_template response ttl_seconds now,
         { entries := st.entries ++ [db_new_entry st key input_text input_hash
             provider model prompt_template response ttl_seconds now],
           nextId := st.nextId + 1 }) := by
  have hany : st.entries.any (fun e => e.cache_key == key) = false := by
    rw [List.any_eq_false]
    intro e he
    simp [hfresh e he]
  unfold db_add_cached_response
  rw [if_neg (by simp [hany])]
  rfl

/-- The row inserted by `cache_response` is `cm_new_entry`: the manager's
ttl conversion composed with the repository's expiry computation, with the
id drawn from any store sharing the original autoincrement counter. -/
theorem db_new_entry_eq_cm (cfg : CacheConfig) (md5hex : String → String)
    (st' st : Store) (hn : st'.nextId = st.nextId)
    (key input_text provider model prompt_template response : String)
    (now : Nat) :
    db_new_entry st' key input_text (md5hex input_text) provider model
      prompt_template response
      (if 0 < cfg.ttl then some cfg.ttl else none) now =
    cm_new_entry cfg md5hex st key input_text provider model prompt_template
      response now := by
  unfold db_new_entry cm_new_entry ttlExpiry
  rw [hn]
  by_cases h : 0 < cfg.ttl
  · simp [h, Nat.pos_iff_ne_zero.mp h]
  · simp [h]

theorem map_noop (f : α → α) (l : List α) (h : ∀ e ∈ l, f e = e) :
    l.map f = l := by
  induction l with
  | nil => rfl
  | cons a as ih =>
    rw [List.map_cons, h a (List.mem_cons_self _ _),
      ih (fun e he => h e (List.mem_cons_of_mem _ he))]

/-- A lookup over rows that all miss the key, followed by one matching live
row, hits that row: the row is bumped and every other row is untouched. -/
theorem db_get_hit_shape (l : List CacheEntry) (c : CacheEntry) (nid : Nat)
    (key : String) (now : Nat)
    (hl : ∀ e ∈ l, (e.cache_key == key) = false)
    (hid : ∀ e ∈ l, (e.id == c.id) = false)
    (hkey : (c.cache_key == key) = true) (hlive : isLiveAt now c = true) :
    db_get_cached_response { entries := l ++ [c], nextId := nid } key now =
      (some { c with hits := c.hits + 1, last_hit := some now },
       { entries := l ++ [{ c with hits := c.hits + 1, last_hit := some now }],
         nextId := nid }) := by
  unfold db_get_cached_response
  rw [find_append_of_none _ l [c] (fun e he => by simp [hl e he])]
  rw [List.find?_cons_of_pos _ (by simp [hkey, hlive])]
  simp only [List.map_append, List.map_cons, List.map_nil]
  rw [map_noop _ l (fun e he => by simp [hid e he])]
  simp

/-- The returned value of a hit (irrespective of how ids are distributed,
which only affects the updated store). -/
theorem db_get_hit_fst (l : List CacheEntry) (c : CacheEntry) (nid : Nat)
    (key : String) (now : Nat)
    (hl : ∀ e ∈ l, (e.cache_key == key) = false)
    (hkey : (c.cache_key == key) = true) (hlive : isLiveAt now c = true) :
    (db_get_cached_response { entries := l ++ [c], nextId := nid } key now).1 =
      some { c with hits := c.hits + 1, last_hit := some now } := by
  unfold db_get_cached_response
  rw [find_append_of_none _ l [c] (fun e he => by simp [hl e he]),
    List.find?_cons_of_pos _ (by simp [hkey, hlive])]

/-- A lookup over a store with no row matching the key misses and leaves the
store untouched. -/
theorem db_get_miss (st : Store) (key : String) (now : Nat)
    (h : ∀ e ∈ st.entries, (e.cache_key == key && isLiveAt now e) = false) :
    db_get_cached_response st key now = (none, st) := by
  unfold db_get_cached_response
  rw [show st.entries.find? (fun e => e.cache_key == key && isLiveAt now e)
      = none from List.find?_eq_none.mpr (fun e he => by simp [h e he])]

/-- Eviction only ever deletes rows: every surviving row was already in the
store.  (Both the expired purge and the victim deletion are filters.) -/
theorem cm_clean_old_entries_subset (cfg : CacheConfig) (st : Store) (now : Nat) :
    ∀ e ∈ (cm_clean_old_entries cfg st now).2.entries, e ∈ st.entries := by
  intro e he
  unfold cm_clean_old_entries expiredCount purgedStore db_clean_expired_cache at he
  dsimp only at he
  split at he
  · exact List.mem_of_mem_filter he
  · split at he
    · exact List.mem_of_mem_filter he
    · exact List.mem_of_mem_filter (List.mem_of_mem_filter he)

/-- Eviction does not touch the autoincrement counter. -/
theorem cm_clean_old_entries_nextId (cfg : CacheConfig) (st : Store) (now : Nat) :
    (cm_clean_old_entries cfg st now).2.nextId = st.nextId := by
  unfold cm_clean_old_entries expiredCount purgedStore db_clean_expired_cache
  simp only
  split
  · rfl
  · split <;> rfl

/-- Concrete configuration for the round-trip claim: cache enabled, no TTL. -/
def c1Cfg : CacheConfig := { enabled := true, ttl := 0, max_size := 10 }

/-- The store after `put("k", ..., "resp")` at time 42 into the empty store. -/
def c1St : Store :=
  (cm_cache_response (fun s => s) c1Cfg false { entries := [], nextId := 0 }
    "k" "text" "prov" "mod" "tmpl" "resp" 42).2

/-- Claim C1 (code bug): after `put` on the fresh key "k", the table holds
exactly the live row with the stored response, and the STORAGE layer's
lookup returns it — the claim's round-trip is what the repository delivers
and plainly the intent.  Yet the Cache Engine's `get` returns `None`: the
manager's hit-log f-string reads `cached.hits`/`created_at` on the row after
the session committed (expiring all attributes) and closed (detaching it),
so every engine-boundary hit raises `DetachedInstanceError`, which the broad
`except` converts to `None`. -/
theorem C1_code_bug :
    c1St.entries.map (fun e => (e.cache_key, e.response)) = [("k", "resp")] ∧
    c1St.entries.all (fun e => isLiveAt 42 e) = true ∧
    (db_get_cached_response c1St "k" 42).1.map (fun e => e.response) =
      some "resp" ∧
    (cm_get_cached_response c1Cfg false c1St "k" 42).1 = none := by
  refine ⟨by decide, by decide, by decide, by decide⟩

/-! ### Expiry boundary (C7) and hit counting (C8) -/

/-- Claim C7: an entry stored with a positive TTL carries
`expires_at = now + ttl`; `get` on its key hits (returning the stored
response) at every time strictly before `expires_at`, and misses at every
time after `expires_at` — while the row still physically exists in the store
until `purge_expired` runs, after which no row with that key remains. -/
theorem C7 (st : Store)
    (key input_text input_hash provider model prompt_template response : String)
    (T now0 : Nat) (hT : 0 < T)
    (hfresh : ∀ e ∈ st.entries, (e.cache_key == key) = false)
    (c : CacheEntry) (st2 : Store)
    (hadd : db_add_cached_response st key input_text input_hash provider model
      prompt_template response (some T) now0 = .ok (c, st2)) :
    c.expires_at = some (now0 + T) ∧
    (∀ t, t < now0 + T →
      ((db_get_cached_response st2 key t).1.map (fun e => e.response)) =
        some response) ∧
    (∀ t, now0 + T < t →
      db_get_cached_response st2 key t = (none, st2) ∧
      c ∈ st2.entries ∧
      ∀ e ∈ (db_clean_expired_cache st2 t).2.entries,
        (e.cache_key == key) = false) := by
  rw [db_add_fresh st key input_text input_hash provider model prompt_template
    response (some T) now0 hfresh] at hadd
  simp only [Except.ok.injEq, Prod.mk.injEq] at hadd
  obtain ⟨hc, hst2⟩ := hadd
  subst hc
  subst hst2
  refine ⟨by simp [db_new_entry, ttlExpiry, hT.ne'], ?_, ?_⟩
  · intro t ht
    rw [db_get_hit_fst st.entries _ _ key t hfresh (by simp [db_new_entry])
      (by simp [isLiveAt, db_new_entry, ttlExpiry, hT.ne', ht])]
    simp [db_new_entry]
  · intro t ht
    refine ⟨?_, List.mem_append_right _ (List.mem_cons_self _ _), ?_⟩
    · apply db_get_miss
      intro e he
      rcases List.mem_append.mp he with h | h
      · simp [hfresh e h]
      · simp only [List.mem_singleton] at h
        subst h
        simp [isLiveAt, db_new_entry, ttlExpiry, hT.ne']
        omega
    · intro e he
      unfold db_clean_expired_cache at he
      dsimp only at he
      have hin := List.mem_of_mem_filter he
      have hkeep := List.of_mem_filter he
      rcases List.mem_append.mp hin with h | h
      · exact hfresh e h
      · simp only [List.mem_singleton] at h
        subst h
        exfalso
        simp [isExpiredAt, db_new_entry, ttlExpiry, hT.ne'] at hkeep
        omega

/-- Concrete row produced by storing key "k" with TTL 5 at time 0. -/
def c7Entry : CacheEntry :=
  { id := 0, cache_key := "k", input_text := "in", input_hash := "h",
    provider := "p", model := "m", prompt_template := "t", response := "r",
    hits := 0, last_hit := none, created_at := 0, expires_at := some 5,
    is_valid := true }

/-- Concrete store after that insertion into the empty store. -/
def c7Store : Store := { entries := [c7Entry], nextId := 1 }

theorem C7_witness :
    ((db_get_cached_response c7Store "k" 3).1.map (fun e => e.response)) =
      some "r" ∧
    db_get_cached_response c7Store "k" 7 = (none, c7Store) := by
  have h := C7 { entries := [], nextId := 0 } "k" "in" "h" "p" "m" "t" "r" 5 0
    (by decide) (by intro e he; simp at he) c7Entry c7Store rfl
  exact ⟨h.2.1 3 (by decide), (h.2.2 7 (by decide)).1⟩

/-- Claim C8: starting from a freshly inserted entry (`hits = 0`), three
successful reads at non-decreasing times return `hits` 1, 2, 3 — each
returned value reflecting the just-performed increment — with `last_hit`
equal to the read times (hence non-decreasing); and a subsequent write
(insert of another entry) leaves the entry's `hits` at 3. -/
theorem C8 (st : Store)
    (key input_text input_hash provider model prompt_template response : String)
    (now0 t1 t2 t3 : Nat) (h12 : t1 ≤ t2) (h23 : t2 ≤ t3)
    (hfresh : ∀ e ∈ st.entries, (e.cache_key == key) = false)
    (hid : ∀ e ∈ st.entries, (e.id == st.nextId) = false)
    (c : CacheEntry) (st0 : Store)
    (hadd : db_add_cached_response st key input_text input_hash provider model
      prompt_template response none now0 = .ok (c, st0)) :
    let g1 := db_get_cached_response st0 key t1
    let g2 := db_get_cached_response g1.2 key t2
    let g3 := db_get_cached_response g2.2 key t3
    (g1.1.map (fun e => e.hits) = some 1 ∧
     g2.1.map (fun e => e.hits) = some 2 ∧
     g3.1.map (fun e => e.hits) = some 3) ∧
    (g1.1.map (fun e => e.last_hit) = some (some t1) ∧
     g2.1.map (fun e => e.last_hit) = some (some t2) ∧
     g3.1.map (fun e => e.last_hit) = some (some t3)) ∧
    (∀ key2 it2 ih2 p2 m2 pt2 r2 ttl2 now4 c4 st4,
      db_add_cached_response g3.2 key2 it2 ih2 p2 m2 pt2 r2 ttl2 now4 =
        .ok (c4, st4) →
      (st4.entries.find? (fun e => e.cache_key == key)).map (fun e => e.hits) =
        some 3) := by
  rw [db_add_fresh st key input_text input_hash provider model prompt_template
    response none now0 hfresh] at hadd
  simp only [Except.ok.injEq, Prod.mk.injEq] at hadd
  obtain ⟨hc, hst0⟩ := hadd
  subst hc
  subst hst0
  dsimp only
  rw [db_get_hit_shape st.entries _ _ key t1 hfresh
    (fun e he => by simpa [db_new_entry] using hid e he)
    (by simp [db_new_entry]) (by simp [isLiveAt, db_new_entry, ttlExpiry])]
  dsimp only
  rw [db_get_hit_shape st.entries _ _ key t2 hfresh
    (fun e he => by simpa [db_new_entry] using hid e he)
    (by simp [db_new_entry]) (by simp [isLiveAt, db_new_entry, ttlExpiry])]
  dsimp only
  rw [db_get_hit_shape st.entries _ _ key t3 hfresh
    (fun e he => by simpa [db_new_entry] using hid e he)
    (by simp [db_new_entry]) (by simp [isLiveAt, db_new_entry, ttlExpiry])]
  refine ⟨⟨by simp [db_new_entry], by simp [db_new_entry], by simp [db_new_entry]⟩,
    ⟨by simp, by simp, by simp⟩, ?_⟩
  intro key2 it2 ih2 p2 m2 pt2 r2 ttl2 now4 c4 st4 hadd2
  unfold db_add_cached_response at hadd2
  split at hadd2
  · cases hadd2
  · simp only [Except.ok.injEq, Prod.mk.injEq] at hadd2
    obtain ⟨hc4, hst4⟩ := hadd2
    subst hst4
    dsimp only
    rw [List.append_assoc, find_append_of_none _ st.entries _ hfresh,
      List.singleton_append, List.find?_cons_of_pos _ (by simp [db_new_entry])]
    simp [db_new_entry]

/-- Concrete row after storing key "k" with no TTL at time 0. -/
def c8Entry : CacheEntry :=
  { id := 0, cache_key := "k", input_text := "in", input_hash := "h",
    provider := "p", model := "m", prompt_template := "t", response := "r",
    hits := 0, last_hit := none, created_at := 0, expires_at := none,
    is_valid := true }

/-- Concrete store after that insertion into the empty store. -/
def c8Store : Store := { entries := [c8Entry], nextId := 1 }

theorem C8_witness :
    ((db_get_cached_response c8Store "k" 1).1.map (fun e => e.hits) = some 1) ∧
    ((db_get_cached_response
        (db_get_cached_response c8Store "k" 1).2 "k" 2).1.map
      (fun e => e.hits) = some 2) ∧
    ((db_get_cached_response (db_get_cached_response
        (db_get_cached_response c8Store "k" 1).2 "k" 2).2 "k" 3).1.map
      (fun e => e.hits) = some 3) := by
  have h := C8 { entries := [], nextId := 0 } "k" "in" "h" "p" "m" "t" "r"
    0 1 2 3 (by decide) (by decide) (by intro e he; simp at he)
    (by intro e he; simp at he) c8Entry c8Store rfl
  exact h.1

/-! ### Eviction lemmas (for C2, C9) -/

/-- When the purge already met the quota, eviction stops there: nothing
further is deleted. -/
theorem clean_old_stop (cfg : CacheConfig) (st : Store) (now : Nat)
    (h : evictQuota cfg ≤ expiredCount st now) :
    cm_clean_old_entries cfg st now = (expiredCount st now, purgedStore st now) := by
  unfold cm_clean_old_entries
  dsimp only
  rw [if_pos h]

/-- Shape of the quota-shortfall branch of `_clean_old_entries`. -/
theorem clean_old_eq (cfg : CacheConfig) (st : Store) (now : Nat)
    (hlt : expiredCount st now < evictQuota cfg)
    (hne : (evictVictims cfg st now).isEmpty = false) :
    cm_clean_old_entries cfg st now =
      (expiredCount st now +
        ((purgedStore st now).entries.filter
          (fun e => ((evictVictims cfg st now).map (fun e => e.id)).contains
            e.id)).length,
       { entries := (purgedStore st now).entries.filter
          (fun e => !((evictVictims cfg st now).map (fun e => e.id)).contains
            e.id),
         nextId := (purgedStore st now).nextId }) := by
  unfold cm_clean_old_entries
  dsimp only
  rw [if_neg (not_le.mpr hlt), if_neg (by simp [hne])]

theorem take_filter_perm {α} (p : α → Bool) (l sorted : List α) (n : Nat)
    (hperm : List.Perm sorted l)
    (hvp : ∀ a ∈ sorted.take n, p a = true)
    (hdp : ∀ b ∈ sorted.drop n, p b = false) :
    List.Perm (l.filter p) (sorted.take n) ∧
    List.Perm (l.filter fun a => !p a) (sorted.drop n) := by
  have h1 : List.Perm (l.filter p) (sorted.filter p) := (hperm.filter p).symm
  have h2 : sorted.filter p = sorted.take n := by
    conv_lhs => rw [← List.take_append_drop n sorted]
    rw [List.filter_append, List.filter_eq_self.mpr hvp,
      List.filter_eq_nil_iff.mpr (fun a ha => by simp [hdp a ha]),
      List.append_nil]
  have h3 : List.Perm (l.filter fun a => !p a)
      (sorted.filter fun a => !p a) := (hperm.filter _).symm
  have h4 : (sorted.filter fun a => !p a) = sorted.drop n := by
    conv_lhs => rw [← List.take_append_drop n sorted]
    rw [List.filter_append,
      List.filter_eq_nil_iff.mpr (fun a ha => by simp [hvp a ha]),
      List.filter_eq_self.mpr (fun a ha => by simp [hdp a ha]),
      List.nil_append]
  exact ⟨h2 ▸ h1, h4 ▸ h3⟩

theorem drop_not_in_take_ids (sorted : List CacheEntry) (n : Nat)
    (hnd : (sorted.map (fun e => e.id)).Nodup) :
    ∀ b ∈ sorted.drop n,
      ((sorted.take n).map (fun e => e.id)).contains b.id = false := by
  intro b hb
  have hnd2 : ((sorted.take n).map (fun e => e.id) ++
      (sorted.drop n).map (fun e => e.id)).Nodup := by
    rw [← List.map_append, List.take_append_drop]
    exact hnd
  rw [List.nodup_append] at hnd2
  have hbid : b.id ∈ (sorted.drop n).map (fun e => e.id) :=
    List.mem_map_of_mem _ hb
  have hnotin : b.id ∉ (sorted.take n).map (fun e => e.id) :=
    fun hmem => hnd2.2.2 hmem hbid
  simpa using hnotin

/-- Core facts about the quota-shortfall branch of eviction: exactly
`quota - expired` victims are selected and deleted, and every victim
precedes every survivor in the eviction order. -/
theorem clean_old_core (cfg : CacheConfig) (st : Store) (now : Nat)
    (hlt : expiredCount st now < evictQuota cfg)
    (hlen : evictQuota cfg - expiredCount st now ≤
      (purgedStore st now).entries.length)
    (hnodup : ((purgedStore st now).entries.map (fun e => e.id)).Nodup) :
    (evictVictims cfg st now).length =
      evictQuota cfg - expiredCount st now ∧
    (cm_clean_old_entries cfg st now).1 =
      expiredCount st now + (evictQuota cfg - expiredCount st now) ∧
    (cm_clean_old_entries cfg st now).2.entries.length =
      (purgedStore st now).entries.length -
        (evictQuota cfg - expiredCount st now) ∧
    ∀ a ∈ evictVictims cfg st now,
      ∀ b ∈ (cm_clean_old_entries cfg st now).2.entries, evictLE a b := by
  have hperm : List.Perm
      ((purgedStore st now).entries.insertionSort evictLE)
      (purgedStore st now).entries := List.perm_insertionSort _ _
  have hvlen : (evictVictims cfg st now).length =
      evictQuota cfg - expiredCount st now := by
    unfold evictVictims
    rw [List.length_take, hperm.length_eq]
    omega
  have hvne : (evictVictims cfg st now).isEmpty = false := by
    have hq1 : 1 ≤ evictQuota cfg := le_max_left _ _
    cases hv : evictVictims cfg st now with
    | nil =>
      rw [hv] at hvlen
      simp at hvlen
      omega
    | cons x xs => rfl
  have hvp : ∀ a ∈ evictVictims cfg st now,
      ((evictVictims cfg st now).map (fun e => e.id)).contains a.id = true := by
    intro a ha
    have : a.id ∈ (evictVictims cfg st now).map (fun e => e.id) :=
      List.mem_map_of_mem _ ha
    simpa using this
  have hnodup_sorted :
      (((purgedStore st now).entries.insertionSort evictLE).map
        (fun e => e.id)).Nodup :=
    ((hperm.map _).nodup_iff).mpr hnodup
  have hdp := drop_not_in_take_ids
    ((purgedStore st now).entries.insertionSort evictLE)
    (evictQuota cfg - expiredCount st now) hnodup_sorted
  obtain ⟨pf, pnf⟩ := take_filter_perm
    (fun e => ((evictVictims cfg st now).map (fun e => e.id)).contains e.id)
    (purgedStore st now).entries
    ((purgedStore st now).entries.insertionSort evictLE)
    (evictQuota cfg - expiredCount st now) hperm hvp hdp
  have hflen := pf.length_eq.trans hvlen
  have hnflen := pnf.length_eq.trans (List.length_drop _ _)
  rw [clean_old_eq cfg st now hlt hvne]
  refine ⟨hvlen, ?_, ?_, ?_⟩
  · dsimp only
    rw [hflen]
  · dsimp only
    rw [hnflen, hperm.length_eq]
  · intro a ha b hb
    dsimp only at hb
    have hbl : b ∈ (purgedStore st now).entries := List.mem_of_mem_filter hb
    have hbp := List.of_mem_filter hb
    have hbsorted : b ∈ (purgedStore st now).entries.insertionSort evictLE :=
      hperm.mem_iff.mpr hbl
    have hbsplit : b ∈ ((purgedStore st now).entries.insertionSort
        evictLE).take (evictQuota cfg - expiredCount st now) ++
        ((purgedStore st now).entries.insertionSort evictLE).drop
          (evictQuota cfg - expiredCount st now) := by
      rw [List.take_append_drop]
      exact hbsorted
    rcases List.mem_append.mp hbsplit with h | h
    · exfalso
      have htrue := hvp b h
      rw [htrue] at hbp
      simp at hbp
    · exact List.Sorted.rel_of_mem_take_of_mem_drop
        (List.sorted_insertionSort _ _) ha h

/-! ### Claims C2, C6, C9 -/

/-- Claim C9: eviction computes `quota = max(1, floor(max_size/10))`, purges
expired rows first, stops with no further deletion when the purge met the
quota, and otherwise deletes exactly `quota - expired` additional rows
(provided that many rows remain, which the capacity trigger guarantees in
context). -/
theorem C9 (cfg : CacheConfig) (st : Store) (now : Nat) :
    evictQuota cfg = max 1 (cfg.max_size / 10) ∧
    (evictQuota cfg ≤ expiredCount st now →
      cm_clean_old_entries cfg st now =
        (expiredCount st now, purgedStore st now)) ∧
    (expiredCount st now < evictQuota cfg →
      evictQuota cfg - expiredCount st now ≤
        (purgedStore st now).entries.length →
      ((purgedStore st now).entries.map (fun e => e.id)).Nodup →
      (cm_clean_old_entries cfg st now).1 =
        expiredCount st now + (evictQuota cfg - expiredCount st now)) :=
  ⟨rfl, fun h => clean_old_stop cfg st now h,
   fun h1 h2 h3 => (clean_old_core cfg st now h1 h2 h3).2.1⟩

/-- Concrete configuration with `max_size = 10` for the eviction claims. -/
def c2Cfg : CacheConfig := { enabled := true, ttl := 0, max_size := 10 }

/-- A tombstoned (invalid) row, never hit, created first. -/
def c2e1 : CacheEntry :=
  { id := 1, cache_key := "k1", input_text := "i1", input_hash := "h1",
    provider := "p", model := "m", prompt_template := "t", response := "r1",
    hits := 0, last_hit := none, created_at := 0, expires_at := none,
    is_valid := false }

/-- A valid row, never hit, created later. -/
def c2e2 : CacheEntry :=
  { id := 2, cache_key := "k2", input_text := "i2", input_hash := "h2",
    provider := "p", model := "m", prompt_template := "t", response := "r2",
    hits := 0, last_hit := none, created_at := 5, expires_at := none,
    is_valid := true }

/-- Store holding the invalid row and the valid row. -/
def c2Store : Store := { entries := [c2e1, c2e2], nextId := 3 }

/-- Claim C2 counterexample: the claim says the additional eviction victims
are drawn only from valid entries.  The source `SELECT` has no validity
filter, so on this store the single victim chosen is the tombstoned row
`c2e1` (`is_valid = false`) — under the claim the valid `c2e2` would have
been deleted instead. -/
theorem C2_counterexample :
    evictVictims c2Cfg c2Store 100 = [c2e1] ∧
    c2e1.is_valid = false ∧
    (cm_clean_old_entries c2Cfg c2Store 100).2.entries = [c2e2] := by
  refine ⟨by decide, by decide, by decide⟩

/-- Claim C2 amended: when the purge falls short of the quota, eviction
selects exactly `quota - expired` additional entries drawn from ALL
remaining rows regardless of the `valid` flag, ordered by `last_hit_at`
ascending with never-hit (null) rows first and ties broken by `created_at`
ascending, and physically deletes them; an entry later in that order is
never removed while an entry earlier in the order remains. -/
theorem C2_amended (cfg : CacheConfig) (st : Store) (now : Nat)
    (hlt : expiredCount st now < evictQuota cfg)
    (hlen : evictQuota cfg - expiredCount st now ≤
      (purgedStore st now).entries.length)
    (hnodup : ((purgedStore st now).entries.map (fun e => e.id)).Nodup) :
    (evictVictims cfg st now).length =
      evictQuota cfg - expiredCount st now ∧
    (cm_clean_old_entries cfg st now).2.entries.length =
      (purgedStore st now).entries.length -
        (evictQuota cfg - expiredCount st now) ∧
    ∀ a ∈ evictVictims cfg st now,
      ∀ b ∈ (cm_clean_old_entries cfg st now).2.entries, evictLE a b :=
  let h := clean_old_core cfg st now hlt hlen hnodup
  ⟨h.1, h.2.2.1, h.2.2.2⟩

theorem C2_amended_witness :
    (evictVictims c2Cfg c2Store 100).length = 1 ∧
    (cm_clean_old_entries c2Cfg c2Store 100).2.entries.length = 1 ∧
    ∀ a ∈ evictVictims c2Cfg c2Store 100,
      ∀ b ∈ (cm_clean_old_entries c2Cfg c2Store 100).2.entries, evictLE a b := by
  have h := C2_amended c2Cfg c2Store 100 (by decide) (by decide) (by decide)
  exact ⟨h.1, h.2.1, h.2.2⟩

/-- Concrete configuration with `max_size = 1` for the trigger claim. -/
def c6Cfg : CacheConfig := { enabled := true, ttl := 0, max_size := 1 }

/-- A valid but already-expired row (`expires_at = 5`, observed at 10). -/
def c6Old : CacheEntry :=
  { id := 0, cache_key := "k0", input_text := "i0", input_hash := "h0",
    provider := "p", model := "m", prompt_template := "t", response := "r0",
    hits := 0, last_hit := none, created_at := 0, expires_at := some 5,
    is_valid := true }

/-- Store holding just that valid-but-expired row. -/
def c6Store : Store := { entries := [c6Old], nextId := 1 }

/-- Claim C6 counterexample: the claim says eviction triggers exactly when
the LIVE count (valid and unexpired) reaches `max_size`.  `_get_cache_size`
counts rows with `valid = true` without any expiry filter, so on this store
(one valid-but-expired row, live count 0 < 1 = max_size) the put still
triggers eviction, which purges the old row — the resulting table holds only
the new entry, while under the claim the old row would have survived the
put. -/
theorem C6_counterexample :
    liveEntryCount 10 c6Store < c6Cfg.max_size ∧
    c6Cfg.max_size ≤ db_count_valid c6Store ∧
    (cm_cache_response (fun s => s) c6Cfg false c6Store "k1" "in" "p" "m" "t"
        "r" 10).2.entries =
      [cm_new_entry c6Cfg (fun s => s) c6Store "k1" "in" "p" "m" "t" "r" 10] := by
  refine ⟨by decide, by decide, by decide⟩

/-- Claim C6 amended: `put` triggers eviction, synchronously before writing
the new entry, exactly when the number of rows with `valid = true`
(counted WITHOUT regard to expiry) has reached or exceeded `max_size`:
below the threshold the table is exactly extended by the new row, at or
above it the table is first evicted and then extended. -/
theorem C6_amended (cfg : CacheConfig) (st : Store) (md5hex : String → String)
    (key input_text provider model prompt_template response : String)
    (now : Nat) (hen : cfg.enabled = true)
    (hfresh : ∀ e ∈ st.entries, (e.cache_key == key) = false) :
    (db_count_valid st < cfg.max_size →
      (cm_cache_response md5hex cfg false st key input_text provider model
          prompt_template response now).2.entries =
        st.entries ++ [cm_new_entry cfg md5hex st key input_text provider
          model prompt_template response now]) ∧
    (cfg.max_size ≤ db_count_valid st →
      (cm_cache_response md5hex cfg false st key input_text provider model
          prompt_template response now).2.entries =
        (cm_clean_old_entries cfg st now).2.entries ++
          [cm_new_entry cfg md5hex st key input_text provider model
            prompt_template response now]) := by
  constructor
  · intro hlt
    unfold cm_cache_response
    rw [hen]
    simp only [Bool.not_true, Bool.false_eq_true, if_false, dbTry]
    rw [if_neg (not_le.mpr hlt),
      db_add_fresh st key input_text (md5hex input_text) provider model
        prompt_template response _ now hfresh]
    dsimp only
    rw [db_new_entry_eq_cm cfg md5hex st st rfl]
  · intro hge
    have hfresh1 : ∀ e ∈ (cm_clean_old_entries cfg st now).2.entries,
        (e.cache_key == key) = false :=
      fun e he => hfresh e (cm_clean_old_entries_subset cfg st now e he)
    unfold cm_cache_response
    rw [hen]
    simp only [Bool.not_true, Bool.false_eq_true, if_false, dbTry]
    rw [if_pos hge,
      db_add_fresh _ key input_text (md5hex input_text) provider model
        prompt_template response _ now hfresh1]
    dsimp only
    rw [db_new_entry_eq_cm cfg md5hex _ st
      (cm_clean_old_entries_nextId cfg st now)]

theorem C6_amended_witness :
    (cm_cache_response (fun s => s) c6Cfg false { entries := [], nextId := 0 }
        "k" "in" "p" "m" "t" "r" 10).2.entries =
      [cm_new_entry c6Cfg (fun s => s) { entries := [], nextId := 0 } "k" "in"
        "p" "m" "t" "r" 10] ∧
    (cm_cache_response (fun s => s) c6Cfg false c6Store "k1" "in" "p" "m" "t"
        "r" 10).2.entries =
      (cm_clean_old_entries c6Cfg c6Store 10).2.entries ++
        [cm_new_entry c6Cfg (fun s => s) c6Store "k1" "in" "p" "m" "t" "r"
          10] := by
  constructor
  · exact (C6_amended c6Cfg { entries := [], nextId := 0 } (fun s => s) "k"
      "in" "p" "m" "t" "r" 10 rfl (by intro e he; simp at he)).1 (by decide)
  · exact (C6_amended c6Cfg c6Store (fun s => s) "k1" "in" "p" "m" "t" "r" 10
      rfl (by decide)).2 (by decide)

theorem C9_witness :
    cm_clean_old_entries c6Cfg c6Store 10 =
      (expiredCount c6Store 10, purgedStore c6Store 10) ∧
    (cm_clean_old_entries c2Cfg c2Store 100).1 = 1 :=
  ⟨(C9 c6Cfg c6Store 10).2.1 (by decide),
   (C9 c2Cfg c2Store 100).2.2 (by decide) (by decide) (by decide)⟩

end PyDracula
